import Mathlib

/-!
Shallow embedding of the in-memory chat core of `src/app.py` (a Flask
multi-room chat service) together with the persistent-schema variant it
shares its data model with (`src/models.py`).

Modelling conventions:
* Python dicts (`users`, `rooms`) become insertion-ordered association
  lists `List (String × _)`; lookup returns the first binding, assignment
  updates an existing binding in place or appends a new one at the end,
  exactly as a Python dict behaves.
* `datetime.utcnow()` timestamps become naturals (seconds); the
  `strftime('%H:%M')` rendering stored next to a timestamp is modelled by
  `formatHM` applied to the same natural.
* `str(uuid.uuid4())` becomes an explicit `freshId : String` parameter.
* `str.strip()` becomes `pstrip` (drop ASCII whitespace at both ends);
  `str.lower()` / `str.isalnum()` are modelled at the ASCII level, which
  is where the reference behaviour (slug derivation) lives.
* Each Flask handler becomes a pure function from the shared state and the
  request fields to the pair of the state after the request and the JSON
  response, with HTTP error responses as `ApiErr` values (status, message).
-/

namespace ChatApp

/-- An identity record: the value stored in the `users` dict of `app.py`,
keyed by the chat-visible username. -/
structure Identity where
  name : String
  email : String
  picture : String
  provider : String
  providerId : String
  createdAt : Nat
  lastSeen : Nat
deriving DecidableEq

/-- A room-scoped message: the dict built in `send_message` (`app.py` line
351).  `edited_at` is absent until an edit stamps it, hence `Option`. -/
structure Message where
  id : String
  userId : String
  nickname : String
  message : String
  timestamp : Nat
  formattedTime : String
  edited : Bool
  editedAt : Option Nat := none
deriving DecidableEq

/-- A private message: the dict built in `send_private_message` (`app.py`
line 487). -/
structure PrivateMessage where
  id : String
  fromUserId : String
  fromNickname : String
  toUserId : String
  toNickname : String
  message : String
  timestamp : Nat
  formattedTime : String
  isPrivate : Bool
deriving DecidableEq

/-- A room record: the value stored in the `rooms` dict of `app.py`,
keyed by the slug. -/
structure Room where
  name : String
  messages : List Message
  createdBy : String
  createdAt : Nat
deriving DecidableEq

/-- The whole shared in-memory state of `app.py`: the `users`, `rooms` and
`private_messages` module-level containers. -/
structure AppState where
  users : List (String × Identity)
  rooms : List (String × Room)
  privateMessages : List PrivateMessage
deriving DecidableEq

/-- The per-client session, restricted to the keys the modelled handlers
touch (`session['username']`, `session['google_nonce']`). -/
structure Session where
  username : Option String
  googleNonce : Option String
deriving DecidableEq

/-- An HTTP error response: status code plus the `error` field of the JSON
body. -/
structure ApiErr where
  status : Nat
  errMsg : String
deriving DecidableEq

/-! ### Python-dict operations on association lists -/

/-- Dict lookup `d[k]` / `k in d`: the first binding of `k`, if any. -/
def dget (d : List (String × α)) (k : String) : Option α :=
  match d with
  | [] => none
  | (k₁, v) :: rest => if k₁ = k then some v else dget rest k

/-- Dict assignment `d[k] = v`: replace the binding in place when `k` is
present, append at the end otherwise (Python insertion order). -/
def dset (d : List (String × α)) (k : String) (v : α) : List (String × α) :=
  match d with
  | [] => [(k, v)]
  | (k₁, v₁) :: rest => if k₁ = k then (k, v) :: rest else (k₁, v₁) :: dset rest k v

/-- In-place mutation of the value at `k` (e.g.
`rooms[slug]['messages'].append(...)`); no effect when `k` is absent. -/
def dmod (d : List (String × α)) (k : String) (f : α → α) : List (String × α) :=
  match d with
  | [] => []
  | (k₁, v₁) :: rest => if k₁ = k then (k₁, f v₁) :: rest else (k₁, v₁) :: dmod rest k f

/-- Dict deletion `del d[k]`: drop every binding of `k` (a Python dict
holds at most one). -/
def ddel (d : List (String × α)) (k : String) : List (String × α) :=
  d.filter (fun p => decide (p.1 ≠ k))

/-! ### String helpers from the source -/

/-- Python `str.strip()`: drop whitespace from both ends. -/
def pstrip (s : String) : String :=
  ⟨((s.data.dropWhile Char.isWhitespace).reverse.dropWhile Char.isWhitespace).reverse⟩

/-- Python `str.lower()` at the ASCII level: map `A`–`Z` to `a`–`z`, leave
everything else alone. -/
def lowerChar (c : Char) : Char :=
  if 65 ≤ c.toNat ∧ c.toNat ≤ 90 then Char.ofNat (c.toNat + 32) else c

/-- One character of the slug pipeline of `create_room` (`app.py` lines
437–438): lowercase, map space and hyphen to underscore, keep the result
only when it is alphanumeric or an underscore. -/
def slugChar (c : Char) : Option Char :=
  let c₁ := lowerChar c
  let c₂ := if c₁ = ' ' ∨ c₁ = '-' then '_' else c₁
  if c₂.isAlphanum ∨ c₂ = '_' then some c₂ else none

/-- The slug derived from a room name:
`room_name.lower().replace(' ', '_').replace('-', '_')` filtered to
alphanumerics and underscores, applied character by character. -/
def slugify (s : String) : String :=
  ⟨s.data.filterMap slugChar⟩

/-- The `strftime('%H:%M')` rendering of a timestamp measured in seconds. -/
def formatHM (t : Nat) : String :=
  toString (t / 3600 % 24) ++ ":" ++ toString (t / 60 % 60)

/-! ### The handlers of `app.py` -/

/-- GET `/api/messages/<room_slug>` (`get_messages`, `app.py` 319–331):
404 when the slug is unknown, otherwise the last 50 stored messages
(`messages[-50:]`) paired with the room name.  The handler is read-only,
so no state is returned. -/
def getMessages (st : AppState) (roomSlug : String) :
    Except ApiErr (List Message × String) :=
  match dget st.rooms roomSlug with
  | none => .error ⟨404, "Room not found"⟩
  | some room =>
    .ok (room.messages.drop (room.messages.length - 50), room.name)

/-- POST `/api/send_message` (`send_message`, `app.py` 333–369).  `freshId`
stands for `str(uuid.uuid4())` and `now` for `datetime.utcnow()`; `author`
is the current user's username, which `get_current_user` guarantees to be
a key of `users`.  Returns the state after the request and the response. -/
def sendMessage (st : AppState) (author roomSlug rawText freshId : String)
    (now : Nat) : AppState × Except ApiErr Message :=
  let text := pstrip rawText
  if roomSlug = "" ∨ text = "" then
    (st, .error ⟨400, "Room ID and message are required"⟩)
  else if (dget st.rooms roomSlug).isNone then
    (st, .error ⟨404, "Room not found"⟩)
  else
    let m : Message :=
      { id := freshId, userId := author, nickname := author, message := text,
        timestamp := now, formattedTime := formatHM now, edited := false }
    let rooms₁ := dmod st.rooms roomSlug
      (fun r => { r with messages := r.messages ++ [m] })
    let users₁ := dmod st.users author (fun u => { u with lastSeen := now })
    ({ st with rooms := rooms₁, users := users₁ }, .ok m)

/-- The search-and-mutate loop of `edit_message` (`app.py` 389–398): walk
the room's messages, update the first one whose id and author both match,
and return the updated list together with the updated message. -/
def editLoop (msgs : List Message) (messageId author newText : String)
    (now : Nat) : Option (List Message × Message) :=
  match msgs with
  | [] => none
  | m :: rest =>
    if m.id = messageId ∧ m.userId = author then
      let m₁ := { m with message := newText, edited := true, editedAt := some now }
      some (m₁ :: rest, m₁)
    else
      match editLoop rest messageId author newText now with
      | none => none
      | some (rest₁, res) => some (m :: rest₁, res)

/-- POST `/api/edit_message` (`edit_message`, `app.py` 371–400).  A lookup
that folds authorization into the search: only a message matching both the
id and the caller is touched, anything else yields the single 404
response. -/
def editMessage (st : AppState) (author roomSlug messageId rawText : String)
    (now : Nat) : AppState × Except ApiErr Message :=
  let newText := pstrip rawText
  if messageId = "" ∨ newText = "" ∨ roomSlug = "" then
    (st, .error ⟨400, "Message ID, new text, and room ID are required"⟩)
  else
    match dget st.rooms roomSlug with
    | none => (st, .error ⟨404, "Room not found"⟩)
    | some room =>
      match editLoop room.messages messageId author newText now with
      | none => (st, .error ⟨404, "Message not found or not authorized"⟩)
      | some (msgs₁, res) =>
        let rooms₁ := dmod st.rooms roomSlug (fun r => { r with messages := msgs₁ })
        ({ st with rooms := rooms₁ }, .ok res)

/-- The search-and-remove loop of `delete_message` (`app.py` 419–423):
pop the first message whose id and author both match. -/
def removeLoop (msgs : List Message) (messageId author : String) :
    Option (List Message) :=
  match msgs with
  | [] => none
  | m :: rest =>
    if m.id = messageId ∧ m.userId = author then some rest
    else
      match removeLoop rest messageId author with
      | none => none
      | some rest₁ => some (m :: rest₁)

/-- POST `/api/delete_message` (`delete_message`, `app.py` 402–425): same
authorization-folded lookup as edit; removes the matched message. -/
def deleteMessage (st : AppState) (author roomSlug messageId : String) :
    AppState × Except ApiErr Unit :=
  if messageId = "" ∨ roomSlug = "" then
    (st, .error ⟨400, "Message ID and room ID are required"⟩)
  else
    match dget st.rooms roomSlug with
    | none => (st, .error ⟨404, "Room not found"⟩)
    | some room =>
      match removeLoop room.messages messageId author with
      | none => (st, .error ⟨404, "Message not found or not authorized"⟩)
      | some msgs₁ =>
        let rooms₁ := dmod st.rooms roomSlug (fun r => { r with messages := msgs₁ })
        ({ st with rooms := rooms₁ }, .ok ())

/-- POST `/api/create_room` (`create_room`, `app.py` 427–452): trim the
name, reject an empty name (400), derive the slug, reject a colliding slug
(400 `Room already exists`), otherwise register the room. -/
def createRoom (st : AppState) (creator rawName : String) (now : Nat) :
    AppState × Except ApiErr (String × String) :=
  let roomName := pstrip rawName
  if roomName = "" then
    (st, .error ⟨400, "Room name is required"⟩)
  else
    let slug := slugify roomName
    if (dget st.rooms slug).isSome then
      (st, .error ⟨400, "Room already exists"⟩)
    else
      let rooms₁ := dset st.rooms slug
        { name := roomName, messages := [], createdBy := creator, createdAt := now }
      ({ st with rooms := rooms₁ }, .ok (slug, roomName))

/-- The participant filter of `get_private_messages` (`app.py` 513–516):
the current user is sender or recipient. -/
def pmInvolves (username : String) (m : PrivateMessage) : Bool :=
  decide (m.fromUserId = username ∨ m.toUserId = username)

/-- The comparison `user_messages.sort(key=lambda x: x['timestamp'])`
sorts by: the timestamp field. -/
def pmLe (a b : PrivateMessage) : Bool :=
  decide (a.timestamp ≤ b.timestamp)

/-- GET `/api/private_messages` (`get_private_messages`, `app.py`
506–522): filter the flat collection to the entries where the current user
is sender or recipient, sort by timestamp (Python's stable `list.sort`,
modelled by `mergeSort`), keep the last 50. -/
def getPrivateMessages (st : AppState) (username : String) :
    List PrivateMessage :=
  let userMessages := st.privateMessages.filter (pmInvolves username)
  let sorted := userMessages.mergeSort pmLe
  sorted.drop (sorted.length - 50)

/-! ### The notification sink (`send_telegram_message`, `app.py` 79–95) -/

/-- The observable outcome of the `requests.post` call inside the sink:
either an HTTP response with some status code, or a raised exception. -/
inductive DeliveryOutcome where
  | response (status : Nat)
  | raised (description : String)
deriving DecidableEq

/-- An environment variable that Python's `not` treats as falsy when it is
unset or the empty string. -/
def present (v : Option String) : Bool :=
  match v with
  | none => false
  | some s => decide (s ≠ "")

/-- The body of the `try` block: deliver and compare the status code to
200; a raised exception is an `Except.error`. -/
def attemptDelivery (o : DeliveryOutcome) : Except String Bool :=
  match o with
  | .raised e => .error e
  | .response s => .ok (decide (s = 200))

/-- `send_telegram_message` (`app.py` 79–95): `False` when either
credential is missing, `False` when the attempt raises (the exception is
caught and logged), otherwise whether the status code was 200.  The
codomain is `Bool`: no failure can propagate out of the call. -/
def sendTelegramMessage (botToken chatId : Option String) (message : String)
    (o : DeliveryOutcome) : Bool :=
  if ¬ present botToken ∨ ¬ present chatId then false
  else
    match attemptDelivery o with
    | .error _ => false
    | .ok ok => ok

/-- `/logout` (`logout`, `app.py` 302–317), the one core operation that
triggers the sink in `src/`: notify (best effort) when a user is logged
in, then clear the session keys unconditionally.  Returns the session
after the request and whether the notification went through. -/
def logout (sess : Session) (currentUser : Option String)
    (botToken chatId : Option String) (o : DeliveryOutcome) :
    Session × Bool :=
  let notified :=
    match currentUser with
    | some u => sendTelegramMessage botToken chatId ("Chat Logout: " ++ u) o
    | none => false
  ({ sess with username := none, googleNonce := none }, notified)

/-! ### The identity rebind operation (spec §4.1) -/

/-- Modelled from the spec: the author rewrite that `rebind` applies to a
room message.  `rebind(old_key, new_key)` has no implementation under
`src/` (the repository ships only the handlers above); spec §4.1 requires
it to rewrite "the author/sender/recipient key and label on every
historical Message and PrivateMessage that referenced `old_key`", where
the label of a message is its author's username (`nickname`). -/
def rebindMessage (oldKey newKey : String) (m : Message) : Message :=
  if m.userId = oldKey then { m with userId := newKey, nickname := newKey }
  else m

/-- Modelled from the spec: the sender/recipient rewrite that `rebind`
applies to a private message (spec §4.1), on the same grounds as
`rebindMessage`. -/
def rebindPrivate (oldKey newKey : String) (p : PrivateMessage) :
    PrivateMessage :=
  let p₁ :=
    if p.fromUserId = oldKey then
      { p with fromUserId := newKey, fromNickname := newKey }
    else p
  if p₁.toUserId = oldKey then
    { p₁ with toUserId := newKey, toNickname := newKey }
  else p₁

/-- Modelled from the spec: the per-room restriction of the rebind
rewrite — every message of the room passed through `rebindMessage`. -/
def rebindRoom (oldKey newKey : String) (r : Room) : Room :=
  { r with messages := r.messages.map (rebindMessage oldKey newKey) }

/-- Modelled from the spec: the state after a successful rebind — the
identity record moved from the old key to the new one, every room message
and every private message rewritten. -/
def rebindState (st : AppState) (oldKey newKey : String) (ident : Identity) :
    AppState :=
  let users₁ := dset (ddel st.users oldKey) newKey ident
  let rooms₁ := st.rooms.map (fun p => (p.1, rebindRoom oldKey newKey p.2))
  let pms₁ := st.privateMessages.map (rebindPrivate oldKey newKey)
  { users := users₁, rooms := rooms₁, privateMessages := pms₁ }

/-- Modelled from the spec: the active session binding after a rebind —
a session bound to the old key follows it to the new key. -/
def rebindSession (sess : Session) (oldKey newKey : String) : Session :=
  { sess with username :=
      if sess.username = some oldKey then some newKey else sess.username }

/-- Modelled from the spec: `rebind(old_key, new_key)` of the Identity
Registry (spec §4.1), absent from `src/`.  Fails with `ConflictError`
(409) when `new_key` is already taken by a different identity; on success
atomically moves the identity record to the new key, updates the active
session binding, and rewrites the key and label on every historical
`Message` and `PrivateMessage` that referenced `old_key`. -/
def rebind (st : AppState) (sess : Session) (oldKey newKey : String) :
    Except ApiErr (AppState × Session × Identity) :=
  match dget st.users oldKey with
  | none => .error ⟨404, "Identity not found"⟩
  | some ident =>
    if newKey ≠ oldKey ∧ (dget st.users newKey).isSome then
      .error ⟨409, "Username already taken"⟩
    else
      .ok (rebindState st oldKey newKey ident,
           rebindSession sess oldKey newKey, ident)

/-- Responses are comparable, so concrete runs can be settled by
`decide`. -/
instance {ε α : Type} [DecidableEq ε] [DecidableEq α] :
    DecidableEq (Except ε α) := fun a b =>
  match a, b with
  | .error e, .error e' =>
    if h : e = e' then .isTrue (congrArg Except.error h)
    else .isFalse (fun hh => h (Except.error.inj hh))
  | .error _, .ok _ => .isFalse (fun hh => Except.noConfusion hh)
  | .ok _, .error _ => .isFalse (fun hh => Except.noConfusion hh)
  | .ok v, .ok v' =>
    if h : v = v' then .isTrue (congrArg Except.ok h)
    else .isFalse (fun hh => h (Except.ok.inj hh))

/-! ### Concrete fixtures (used by witnesses and counterexamples) -/

/-- The room record `create_room` registers for a creator, a trimmed name
and a timestamp. -/
def mkRoom (creator name : String) (t : Nat) : Room :=
  { name := name, messages := [], createdBy := creator, createdAt := t }

/-- A registered identity, as `google_callback` would create it. -/
def mkIdentity (n : String) : Identity :=
  { name := n, email := n ++ "@example.com", picture := "", provider := "google",
    providerId := n ++ "-id", createdAt := 0, lastSeen := 0 }

/-- An empty seeded room, as in the module-level `rooms` literal. -/
def seedRoom (n : String) : Room :=
  { name := n, messages := [], createdBy := "system", createdAt := 0 }

/-- The pristine shared state: the two seeded rooms of `app.py` plus three
registered users. -/
def st₀ : AppState :=
  { users := [("alice", mkIdentity "alice"), ("carol", mkIdentity "carol"),
              ("mallory", mkIdentity "mallory")],
    rooms := [("general", seedRoom "General"), ("random", seedRoom "Random")],
    privateMessages := [] }

/-- A message posted by alice in `general`, used to exercise edit/delete. -/
def msgA : Message :=
  { id := "m1", userId := "alice", nickname := "alice", message := "hi",
    timestamp := 5, formattedTime := formatHM 5, edited := false }

/-- `st₀` after alice's message has been appended to `general`. -/
def st₁ : AppState :=
  { st₀ with rooms := [("general", { seedRoom "General" with messages := [msgA] }),
                       ("random", seedRoom "Random")] }

/-- The `general` room of `st₁`. -/
def room₁ : Room := { seedRoom "General" with messages := [msgA] }

/-! ### Dictionary lemmas -/

theorem dget_dmod_self (d : List (String × α)) (k : String) (f : α → α) :
    dget (dmod d k f) k = (dget d k).map f := by
  induction d with
  | nil => rfl
  | cons p rest ih =>
    obtain ⟨k₁, v₁⟩ := p
    by_cases h : k₁ = k
    · simp [dmod, dget, h]
    · simp [dmod, dget, h, ih]

theorem dget_dmod_ne (d : List (String × α)) (k k' : String) (f : α → α)
    (h : k' ≠ k) : dget (dmod d k f) k' = dget d k' := by
  induction d with
  | nil => rfl
  | cons p rest ih =>
    obtain ⟨k₁, v₁⟩ := p
    by_cases hk : k₁ = k
    · subst hk
      simp only [dmod, if_pos rfl, dget]
      rw [if_neg (fun hh => h hh.symm), if_neg (fun hh => h hh.symm)]
    · simp only [dmod, if_neg hk, dget]
      by_cases hk' : k₁ = k'
      · simp [hk']
      · simp [hk', ih]

theorem dget_dset_self (d : List (String × α)) (k : String) (v : α) :
    dget (dset d k v) k = some v := by
  induction d with
  | nil => simp [dset, dget]
  | cons p rest ih =>
    obtain ⟨k₁, v₁⟩ := p
    by_cases h : k₁ = k
    · simp [dset, dget, h]
    · simp [dset, dget, h, ih]

theorem dget_dset_ne (d : List (String × α)) (k k' : String) (v : α)
    (h : k' ≠ k) : dget (dset d k v) k' = dget d k' := by
  induction d with
  | nil =>
    simp only [dset, dget]
    rw [if_neg (fun hh => h hh.symm)]
  | cons p rest ih =>
    obtain ⟨k₁, v₁⟩ := p
    by_cases hk : k₁ = k
    · subst hk
      simp only [dset, if_pos rfl, dget]
      rw [if_neg (fun hh => h hh.symm), if_neg (fun hh => h hh.symm)]
    · simp only [dset, if_neg hk, dget]
      by_cases hk' : k₁ = k'
      · simp [hk']
      · simp [hk', ih]

theorem dget_ddel_self (d : List (String × α)) (k : String) :
    dget (ddel d k) k = none := by
  induction d with
  | nil => rfl
  | cons p rest ih =>
    obtain ⟨k₁, v₁⟩ := p
    by_cases h : k₁ = k
    · simpa [ddel, h] using ih
    · simpa [ddel, dget, h] using ih

theorem dget_map_val (d : List (String × α)) (g : α → β) (k : String) :
    dget (d.map (fun p => (p.1, g p.2))) k = (dget d k).map g := by
  induction d with
  | nil => rfl
  | cons p rest ih =>
    obtain ⟨k₁, v₁⟩ := p
    by_cases h : k₁ = k
    · simp [dget, h]
    · simp [dget, h, ih]

/-! ### Loop lemmas for edit and delete -/

theorem editLoop_eq_none (msgs : List Message) (mid author t : String)
    (now : Nat) (h : ∀ m ∈ msgs, ¬(m.id = mid ∧ m.userId = author)) :
    editLoop msgs mid author t now = none := by
  induction msgs with
  | nil => rfl
  | cons m rest ih =>
    simp only [editLoop]
    rw [if_neg (h m (List.mem_cons_self m rest)),
      ih (fun x hx => h x (List.mem_cons_of_mem m hx))]

theorem editLoop_first (l₁ : List Message) (m : Message) (l₂ : List Message)
    (mid author t : String) (now : Nat)
    (hid : m.id = mid) (hauth : m.userId = author)
    (h₁ : ∀ m' ∈ l₁, ¬(m'.id = mid ∧ m'.userId = author)) :
    editLoop (l₁ ++ m :: l₂) mid author t now =
      some (l₁ ++ { m with message := t, edited := true, editedAt := some now } :: l₂,
        { m with message := t, edited := true, editedAt := some now }) := by
  induction l₁ with
  | nil =>
    simp only [List.nil_append, editLoop]
    rw [if_pos ⟨hid, hauth⟩]
  | cons x rest ih =>
    simp only [List.cons_append, editLoop, List.append_eq]
    rw [if_neg (h₁ x (List.mem_cons_self x rest)),
      ih (fun y hy => h₁ y (List.mem_cons_of_mem x hy))]

theorem removeLoop_eq_none (msgs : List Message) (mid author : String)
    (h : ∀ m ∈ msgs, ¬(m.id = mid ∧ m.userId = author)) :
    removeLoop msgs mid author = none := by
  induction msgs with
  | nil => rfl
  | cons m rest ih =>
    simp only [removeLoop]
    rw [if_neg (h m (List.mem_cons_self m rest)),
      ih (fun x hx => h x (List.mem_cons_of_mem m hx))]

theorem removeLoop_first (l₁ : List Message) (m : Message) (l₂ : List Message)
    (mid author : String)
    (hid : m.id = mid) (hauth : m.userId = author)
    (h₁ : ∀ m' ∈ l₁, ¬(m'.id = mid ∧ m'.userId = author)) :
    removeLoop (l₁ ++ m :: l₂) mid author = some (l₁ ++ l₂) := by
  induction l₁ with
  | nil =>
    simp only [List.nil_append, removeLoop]
    rw [if_pos ⟨hid, hauth⟩]
  | cons x rest ih =>
    simp only [List.cons_append, removeLoop, List.append_eq]
    rw [if_neg (h₁ x (List.mem_cons_self x rest)),
      ih (fun y hy => h₁ y (List.mem_cons_of_mem x hy))]

/-! ### Idempotence of the slug pipeline -/

theorem lowerChar_not_upper (c : Char) :
    ¬(65 ≤ (lowerChar c).toNat ∧ (lowerChar c).toNat ≤ 90) := by
  unfold lowerChar
  split
  · next h =>
    obtain ⟨h₁, h₂⟩ := h
    generalize c.toNat = n at h₁ h₂ ⊢
    interval_cases n <;> decide
  · next h => exact h

theorem lowerChar_idem (c : Char) : lowerChar (lowerChar c) = lowerChar c := by
  rw [lowerChar, if_neg (lowerChar_not_upper c)]

theorem slugChar_idem {c d : Char} (h : slugChar c = some d) :
    slugChar d = some d := by
  simp only [slugChar] at h ⊢
  by_cases h₁ : lowerChar c = ' ' ∨ lowerChar c = '-'
  · rw [if_pos h₁] at h
    have hd : d = '_' := by
      by_cases h₂ : ('_' : Char).isAlphanum = true ∨ ('_' : Char) = '_'
      · rw [if_pos h₂] at h
        exact (Option.some_inj.mp h).symm
      · rw [if_neg h₂] at h
        cases h
    subst hd
    decide
  · rw [if_neg h₁] at h
    by_cases h₂ : (lowerChar c).isAlphanum = true ∨ lowerChar c = '_'
    · rw [if_pos h₂] at h
      have hd : d = lowerChar c := (Option.some_inj.mp h).symm
      subst hd
      rw [lowerChar_idem c, if_neg h₁, if_pos h₂]
    · rw [if_neg h₂] at h
      cases h

theorem slugify_idem (s : String) : slugify (slugify s) = slugify s := by
  have hfun : (fun x => (slugChar x).bind slugChar) = slugChar := by
    funext x
    cases hx : slugChar x with
    | none => simp [hx]
    | some d =>
      show slugChar d = some d
      exact slugChar_idem hx
  show (⟨(s.data.filterMap slugChar).filterMap slugChar⟩ : String)
    = ⟨s.data.filterMap slugChar⟩
  rw [List.filterMap_filterMap, hfun]

/-- A creation against a state whose derived slug is already taken fails
with the duplicate error and leaves the state untouched. -/
theorem createRoom_dup (st' : AppState) (creator name : String) (t : Nat)
    (hname : pstrip name ≠ "")
    (htaken : (dget st'.rooms (slugify (pstrip name))).isSome = true) :
    createRoom st' creator name t = (st', .error ⟨400, "Room already exists"⟩) := by
  simp only [createRoom]
  rw [if_neg hname, if_pos htaken]

/-! ### Claim theorems -/

/-- C5: slug derivation is a deterministic (it is a function of the name
alone), idempotent normalisation; `"My Room!"` and `"my room!"` derive the
same slug; and two creations whose (trimmed) names derive the same free
slug succeed the first time and fail the second time with the duplicate
error, leaving the state — hence the first room — exactly as the first
creation left it. -/
theorem slugify_createRoom_spec (st : AppState)
    (name₁ name₂ creator₁ creator₂ : String) (t₁ t₂ : Nat)
    (h₁ : pstrip name₁ ≠ "") (h₂ : pstrip name₂ ≠ "")
    (hsame : slugify (pstrip name₁) = slugify (pstrip name₂))
    (hfree : dget st.rooms (slugify (pstrip name₁)) = none) :
    (∀ s : String, slugify (slugify s) = slugify s)
    ∧ slugify "My Room!" = slugify "my room!"
    ∧ (createRoom st creator₁ name₁ t₁).2
        = .ok (slugify (pstrip name₁), pstrip name₁)
    ∧ dget ((createRoom st creator₁ name₁ t₁).1).rooms (slugify (pstrip name₁))
        = some (mkRoom creator₁ (pstrip name₁) t₁)
    ∧ createRoom ((createRoom st creator₁ name₁ t₁).1) creator₂ name₂ t₂
        = ((createRoom st creator₁ name₁ t₁).1,
           .error ⟨400, "Room already exists"⟩) := by
  have hfirst : createRoom st creator₁ name₁ t₁
      = ({ st with rooms := dset st.rooms (slugify (pstrip name₁)) (mkRoom creator₁ (pstrip name₁) t₁) },
         .ok (slugify (pstrip name₁), pstrip name₁)) := by
    simp only [createRoom]
    rw [if_neg h₁, hfree]
    rfl
  have hrooms : ((createRoom st creator₁ name₁ t₁).1).rooms
      = dset st.rooms (slugify (pstrip name₁)) (mkRoom creator₁ (pstrip name₁) t₁) :=
    congrArg (fun q => q.1.rooms) hfirst
  refine ⟨slugify_idem, by decide, congrArg Prod.snd hfirst, ?_, ?_⟩
  · rw [hrooms]
    exact dget_dset_self st.rooms _ _
  · have htaken : (dget ((createRoom st creator₁ name₁ t₁).1).rooms
        (slugify (pstrip name₂))).isSome = true := by
      rw [hrooms, ← hsame, dget_dset_self]
      rfl
    exact createRoom_dup _ creator₂ name₂ t₂ h₂ htaken

/-- Witness for C5 at concrete inputs: creating `"My Room!"` in the
pristine state yields slug `my_room`, and creating `"my room!"` right
afterwards fails as a duplicate. -/
theorem slugify_createRoom_spec_witness :
    (createRoom st₀ "alice" "My Room!" 3).2 = .ok ("my_room", "My Room!")
    ∧ createRoom ((createRoom st₀ "alice" "My Room!" 3).1) "carol" "my room!" 4
        = ((createRoom st₀ "alice" "My Room!" 3).1,
           .error ⟨400, "Room already exists"⟩) := by
  obtain ⟨-, -, hok, -, hdup⟩ := slugify_createRoom_spec st₀ "My Room!" "my room!"
    "alice" "carol" 3 4 (by decide) (by decide) (by decide) (by decide)
  exact ⟨hok, hdup⟩

/-- C9: a room name that survives trimming but has no alphanumeric, space
or hyphen characters derives the empty slug, and `create_room` registers
it without any non-emptiness check on the slug; a second such name then
collides on the empty slug and fails as a duplicate. -/
theorem createRoom_empty_slug :
    slugify "!!!" = ""
    ∧ (createRoom st₀ "alice" "!!!" 1).2 = .ok ("", "!!!")
    ∧ dget ((createRoom st₀ "alice" "!!!" 1).1).rooms ""
        = some (mkRoom "alice" "!!!" 1)
    ∧ createRoom ((createRoom st₀ "alice" "!!!" 1).1) "carol" "???" 2
        = ((createRoom st₀ "alice" "!!!" 1).1,
           .error ⟨400, "Room already exists"⟩) := by
  refine ⟨by decide, by decide, by decide, by decide⟩

/-- C6: reading a room's messages 404s on an unknown slug, and otherwise
returns the most recent 50 messages (all of them when the room holds 50 or
fewer) as a suffix of the room's sequence, i.e. in stored chronological
order with the oldest of the window first.  `getMessages` takes the state
apart from any mutation path: it returns no state, so the room is
unmodified by construction. -/
theorem getMessages_spec (st : AppState) (slug : String) :
    (dget st.rooms slug = none →
      getMessages st slug = .error ⟨404, "Room not found"⟩)
    ∧ (∀ room, dget st.rooms slug = some room →
        ∃ msgs, getMessages st slug = .ok (msgs, room.name)
          ∧ msgs.length = min 50 room.messages.length
          ∧ msgs <:+ room.messages
          ∧ (room.messages.length ≤ 50 → msgs = room.messages)) := by
  constructor
  · intro h
    simp [getMessages, h]
  · intro room h
    refine ⟨room.messages.drop (room.messages.length - 50), ?_, ?_, ?_, ?_⟩
    · simp [getMessages, h]
    · rw [List.length_drop]
      omega
    · exact List.drop_suffix _ _
    · intro hle
      have h0 : room.messages.length - 50 = 0 := by omega
      rw [h0, List.drop_zero]

/-- Witness for C6: reading `general` in the one-message state returns
exactly that message, oldest first. -/
theorem getMessages_spec_witness :
    getMessages st₁ "general" = .ok ([msgA], "General") := by
  obtain ⟨msgs, hok, -, -, hall⟩ :=
    (getMessages_spec st₁ "general").2 room₁ (by decide)
  rw [hok, hall (by decide)]
  rfl

/-- The result of an in-place edit of a message: text replaced, edited
flag set, edited-at stamped (`app.py` 391–393). -/
def editedMsg (m : Message) (t : String) (now : Nat) : Message :=
  { m with message := t, edited := true, editedAt := some now }

/-- The state with one room's message sequence replaced, all else kept. -/
def withMessages (st : AppState) (slug : String) (msgs : List Message) :
    AppState :=
  { st with rooms := dmod st.rooms slug (fun r => { r with messages := msgs }) }

/-- The state after a successful post: the message appended to the room,
the author's last-seen refreshed (`app.py` 361–364). -/
def postState (st : AppState) (author slug : String) (m : Message)
    (now : Nat) : AppState :=
  let rooms₁ := dmod st.rooms slug (fun r => { r with messages := r.messages ++ [m] })
  let users₁ := dmod st.users author (fun u => { u with lastSeen := now })
  { st with rooms := rooms₁, users := users₁ }

/-- C2: for a well-formed edit request on a known room, when no message of
the room carries both the requested id and the caller as author — whether
because the caller is not the author of the message with that id, or
because no message has that id at all — the edit returns the one 404
response `Message not found or not authorized` and leaves the state (hence
the room's whole message sequence) unchanged; the two failure scenarios
are literally indistinguishable, producing the same response value.  When
the caller is the author of a message with that id, the edit replaces the
text in place with the trimmed input, sets the edited flag and stamps
`edited_at`. -/
theorem editMessage_auth_folded (st : AppState) (room : Room)
    (caller slug mid text : String) (now : Nat)
    (hroom : dget st.rooms slug = some room)
    (hslug : slug ≠ "") (hmid : mid ≠ "") (htext : pstrip text ≠ "") :
    ((∀ m ∈ room.messages, m.id = mid → m.userId ≠ caller) →
        editMessage st caller slug mid text now
          = (st, .error ⟨404, "Message not found or not authorized"⟩))
    ∧ (∀ l₁ m l₂, room.messages = l₁ ++ m :: l₂ → m.id = mid →
        m.userId = caller →
        (∀ m' ∈ l₁, ¬(m'.id = mid ∧ m'.userId = caller)) →
        editMessage st caller slug mid text now
          = (withMessages st slug (l₁ ++ editedMsg m (pstrip text) now :: l₂),
             .ok (editedMsg m (pstrip text) now))) := by
  have hcond : ¬(mid = "" ∨ pstrip text = "" ∨ slug = "") := by
    push_neg
    exact ⟨hmid, htext, hslug⟩
  constructor
  · intro hnon
    have hloop : editLoop room.messages mid caller (pstrip text) now = none :=
      editLoop_eq_none _ _ _ _ _
        (fun m hm hc => hnon m hm hc.1 hc.2)
    simp only [editMessage]
    rw [if_neg hcond]
    simp only [hroom, hloop]
  · intro l₁ m l₂ hdecomp hid hauth hfirst
    have hloop := editLoop_first l₁ m l₂ mid caller (pstrip text) now hid hauth hfirst
    simp only [editMessage, withMessages, editedMsg]
    rw [if_neg hcond]
    simp only [hroom, hdecomp, hloop]

/-- Witness for C2: in the one-message state, an attempt by mallory on
the message of alice yields the 404 and changes nothing, while the edit by
alice updates text and flags. -/
theorem editMessage_auth_folded_witness :
    editMessage st₁ "mallory" "general" "m1" "hacked" 9
      = (st₁, .error ⟨404, "Message not found or not authorized"⟩)
    ∧ (editMessage st₁ "alice" "general" "m1" "hello" 9).2
      = .ok (editedMsg msgA "hello" 9) := by
  constructor
  · exact (editMessage_auth_folded st₁ room₁ "mallory" "general" "m1" "hacked" 9
      (by decide) (by decide) (by decide) (by decide)).1 (by decide)
  · have h := (editMessage_auth_folded st₁ room₁ "alice" "general" "m1" "hello" 9
      (by decide) (by decide) (by decide) (by decide)).2 [] msgA [] rfl rfl rfl
      (fun m' hm' => absurd hm' (List.not_mem_nil m'))
    rw [congrArg Prod.snd h]
    rfl

/-- C4: for a well-formed delete request on a known room, when the caller
authored a message with the requested id, the delete removes exactly that
message, keeping every other message in its original relative order; when
no message carries both the id and the caller as author, the delete
returns the 404 response and leaves the state entirely unchanged — an
error value, not a crash. -/
theorem deleteMessage_spec (st : AppState) (room : Room)
    (caller slug mid : String)
    (hroom : dget st.rooms slug = some room)
    (hslug : slug ≠ "") (hmid : mid ≠ "") :
    (∀ l₁ m l₂, room.messages = l₁ ++ m :: l₂ → m.id = mid →
        m.userId = caller →
        (∀ m' ∈ l₁, ¬(m'.id = mid ∧ m'.userId = caller)) →
        deleteMessage st caller slug mid
          = (withMessages st slug (l₁ ++ l₂), .ok ()))
    ∧ ((∀ m ∈ room.messages, ¬(m.id = mid ∧ m.userId = caller)) →
        deleteMessage st caller slug mid
          = (st, .error ⟨404, "Message not found or not authorized"⟩)) := by
  have hcond : ¬(mid = "" ∨ slug = "") := by
    push_neg
    exact ⟨hmid, hslug⟩
  constructor
  · intro l₁ m l₂ hdecomp hid hauth hfirst
    have hloop := removeLoop_first l₁ m l₂ mid caller hid hauth hfirst
    simp only [deleteMessage, withMessages]
    rw [if_neg hcond]
    simp only [hroom, hdecomp, hloop]
  · intro hnon
    have hloop : removeLoop room.messages mid caller = none :=
      removeLoop_eq_none _ _ _ hnon
    simp only [deleteMessage]
    rw [if_neg hcond]
    simp only [hroom, hloop]

/-- Witness for C4: alice deleting the only message of the room empties
it, while deleting an absent id returns the 404 with nothing changed. -/
theorem deleteMessage_spec_witness :
    (deleteMessage st₁ "alice" "general" "m1").2 = .ok ()
    ∧ deleteMessage st₁ "alice" "general" "zzz"
      = (st₁, .error ⟨404, "Message not found or not authorized"⟩) := by
  constructor
  · have h := (deleteMessage_spec st₁ room₁ "alice" "general" "m1"
      (by decide) (by decide) (by decide)).1 [] msgA [] rfl rfl rfl
      (fun m' hm' => absurd hm' (List.not_mem_nil m'))
    rw [congrArg Prod.snd h]
  · exact (deleteMessage_spec st₁ room₁ "alice" "general" "zzz"
      (by decide) (by decide) (by decide)).2 (by decide)

/-- C3, counterexample: the claim promises the posted text back unchanged
and a not-found error for any unknown slug, but the code stores the
trimmed text (posting `" hi "` records `"hi"`), and an empty slug —
unknown to the store — is answered by the 400 validation response, not the
404. -/
theorem sendMessage_c3_counterexample :
    ((sendMessage st₀ "alice" "general" " hi " "m1" 5).2
        = .ok { id := "m1", userId := "alice", nickname := "alice",
                message := "hi", timestamp := 5, formattedTime := formatHM 5,
                edited := false })
    ∧ " hi " ≠ "hi"
    ∧ dget st₀.rooms "" = none
    ∧ sendMessage st₀ "alice" "" "hi" "m2" 5
        = (st₀, .error ⟨400, "Room ID and message are required"⟩) := by
  refine ⟨by decide, by decide, by decide, by decide⟩

/-- C3, amended: for a known non-empty slug and a text that trims
non-empty, post succeeds, appends a fresh message carrying the trimmed
text with `edited = false` to the end of the room sequence, and a
subsequent read of the room includes that message; a text trimming to
empty is a 400 validation error, and a non-empty unknown slug (the text
being non-empty) is the 404. -/
theorem sendMessage_post_then_get (st : AppState) (room : Room)
    (author slug rawText freshId : String) (now : Nat) :
    (dget st.rooms slug = some room → slug ≠ "" → pstrip rawText ≠ "" →
      ∃ m, (sendMessage st author slug rawText freshId now).2 = .ok m
        ∧ m.message = pstrip rawText ∧ m.edited = false ∧ m.id = freshId
        ∧ dget ((sendMessage st author slug rawText freshId now).1).rooms slug
            = some { room with messages := room.messages ++ [m] }
        ∧ ∃ msgs,
            getMessages ((sendMessage st author slug rawText freshId now).1) slug
              = .ok (msgs, room.name) ∧ m ∈ msgs)
    ∧ (pstrip rawText = "" →
        sendMessage st author slug rawText freshId now
          = (st, .error ⟨400, "Room ID and message are required"⟩))
    ∧ (pstrip rawText ≠ "" → slug ≠ "" → dget st.rooms slug = none →
        sendMessage st author slug rawText freshId now
          = (st, .error ⟨404, "Room not found"⟩)) := by
  refine ⟨?_, ?_, ?_⟩
  · intro hroom hslug htext
    have hcond : ¬(slug = "" ∨ pstrip rawText = "") := by
      push_neg
      exact ⟨hslug, htext⟩
    set m : Message :=
      { id := freshId, userId := author, nickname := author,
        message := pstrip rawText, timestamp := now,
        formattedTime := formatHM now, edited := false } with hm
    have hrun : sendMessage st author slug rawText freshId now
        = (postState st author slug m now, .ok m) := by
      simp only [sendMessage, postState]
      rw [if_neg hcond]
      simp only [hroom, Option.isNone_some, Bool.false_eq_true, if_false]
    have hrooms : ((sendMessage st author slug rawText freshId now).1).rooms
        = dmod st.rooms slug (fun r => { r with messages := r.messages ++ [m] }) :=
      congrArg (fun q => q.1.rooms) hrun
    have hroomafter :
        dget ((sendMessage st author slug rawText freshId now).1).rooms slug
          = some { room with messages := room.messages ++ [m] } := by
      rw [hrooms, dget_dmod_self, hroom]
      rfl
    refine ⟨m, congrArg Prod.snd hrun, rfl, rfl, rfl, hroomafter, ?_⟩
    refine ⟨(room.messages ++ [m]).drop ((room.messages ++ [m]).length - 50), ?_, ?_⟩
    · simp [getMessages, hroomafter]
    · have hk : (room.messages ++ [m]).length - 50 ≤ room.messages.length := by
        rw [List.length_append]
        simp only [List.length_singleton]
        omega
      rw [List.drop_append_of_le_length hk]
      exact List.mem_append_right _ (List.mem_singleton_self m)
  · intro htext
    have hcond : slug = "" ∨ pstrip rawText = "" := Or.inr htext
    simp only [sendMessage]
    rw [if_pos hcond]
  · intro htext hslug hnone
    have hcond : ¬(slug = "" ∨ pstrip rawText = "") := by
      push_neg
      exact ⟨hslug, htext⟩
    simp only [sendMessage]
    rw [if_neg hcond]
    simp only [hnone, Option.isNone_none, if_true]

/-! ### Ordering facts for the private-message sort -/

theorem pmLe_trans : ∀ a b c : PrivateMessage, pmLe a b → pmLe b c → pmLe a c := by
  intro a b c hab hbc
  simp only [pmLe, decide_eq_true_eq] at hab hbc ⊢
  omega

theorem pmLe_total : ∀ a b : PrivateMessage, pmLe a b || pmLe b a := by
  intro a b
  simp only [pmLe]
  rcases Nat.le_total a.timestamp b.timestamp with h | h
  · simp [h]
  · simp [h]

/-- The last-50 window of a timestamp-sorted list: every element comes
from the input, the window is sorted, its length is `min 50`, it is the
whole input when the input is short, and everything cut away is no later
than anything kept. -/
theorem last50_core (l : List PrivateMessage) :
    (∀ m ∈ (l.mergeSort pmLe).drop ((l.mergeSort pmLe).length - 50), m ∈ l)
    ∧ ((l.mergeSort pmLe).drop ((l.mergeSort pmLe).length - 50)).Pairwise
        (fun a b => a.timestamp ≤ b.timestamp)
    ∧ ((l.mergeSort pmLe).drop ((l.mergeSort pmLe).length - 50)).length
        = min 50 l.length
    ∧ (l.length ≤ 50 →
        ∀ m ∈ l, m ∈ (l.mergeSort pmLe).drop ((l.mergeSort pmLe).length - 50))
    ∧ (∀ m ∈ l, m ∉ (l.mergeSort pmLe).drop ((l.mergeSort pmLe).length - 50) →
        ∀ m' ∈ (l.mergeSort pmLe).drop ((l.mergeSort pmLe).length - 50),
          m.timestamp ≤ m'.timestamp) := by
  have hsorted : (l.mergeSort pmLe).Pairwise (fun a b => pmLe a b = true) :=
    List.sorted_mergeSort pmLe_trans pmLe_total l
  refine ⟨?_, ?_, ?_, ?_, ?_⟩
  · intro m hm
    exact List.mem_mergeSort.mp (List.mem_of_mem_drop hm)
  · refine (List.Pairwise.sublist (List.drop_sublist _ _) hsorted).imp ?_
    intro a b hab
    simpa [pmLe] using hab
  · rw [List.length_drop, List.length_mergeSort]
    omega
  · intro hle m hm
    have hk : (l.mergeSort pmLe).length - 50 = 0 := by
      rw [List.length_mergeSort]
      omega
    rw [hk, List.drop_zero]
    exact List.mem_mergeSort.mpr hm
  · intro m hm hnot m' hm'
    have hmem : m ∈ l.mergeSort pmLe := List.mem_mergeSort.mpr hm
    have hsplit := List.take_append_drop
      ((l.mergeSort pmLe).length - 50) (l.mergeSort pmLe)
    have hmtake : m ∈ (l.mergeSort pmLe).take ((l.mergeSort pmLe).length - 50) := by
      rcases List.mem_append.mp (hsplit ▸ hmem) with h | h
      · exact h
      · exact absurd h hnot
    have hpw : ((l.mergeSort pmLe).take ((l.mergeSort pmLe).length - 50)
        ++ (l.mergeSort pmLe).drop ((l.mergeSort pmLe).length - 50)).Pairwise
        (fun a b => pmLe a b = true) := by
      rw [hsplit]
      exact hsorted
    have hle := (List.pairwise_append.mp hpw).2.2 m hmtake m' hm'
    simpa [pmLe] using hle

/-- C7: listing private messages for an identity returns exactly the
entries of the collection in which the identity is sender or recipient
(and no others), sorted ascending by timestamp, truncated to the most
recent 50: the window is the whole filtered set when it has at most 50
entries, and whatever is cut away is no later than anything kept. -/
theorem getPrivateMessages_spec (st : AppState) (u : String) :
    (∀ m ∈ getPrivateMessages st u,
        m ∈ st.privateMessages ∧ (m.fromUserId = u ∨ m.toUserId = u))
    ∧ (getPrivateMessages st u).Pairwise (fun a b => a.timestamp ≤ b.timestamp)
    ∧ (getPrivateMessages st u).length
        = min 50 (st.privateMessages.filter (pmInvolves u)).length
    ∧ ((st.privateMessages.filter (pmInvolves u)).length ≤ 50 →
        ∀ m ∈ st.privateMessages, m.fromUserId = u ∨ m.toUserId = u →
          m ∈ getPrivateMessages st u)
    ∧ (∀ m ∈ st.privateMessages, m.fromUserId = u ∨ m.toUserId = u →
        m ∉ getPrivateMessages st u →
        ∀ m' ∈ getPrivateMessages st u, m.timestamp ≤ m'.timestamp) := by
  obtain ⟨h₁, h₂, h₃, h₄, h₅⟩ := last50_core (st.privateMessages.filter (pmInvolves u))
  have hres : getPrivateMessages st u
      = ((st.privateMessages.filter (pmInvolves u)).mergeSort pmLe).drop
          (((st.privateMessages.filter (pmInvolves u)).mergeSort pmLe).length - 50) := rfl
  refine ⟨?_, ?_, ?_, ?_, ?_⟩
  · intro m hm
    rw [hres] at hm
    have hf := List.mem_filter.mp (h₁ m hm)
    refine ⟨hf.1, ?_⟩
    simpa [pmInvolves] using hf.2
  · rw [hres]
    exact h₂
  · rw [hres]
    exact h₃
  · intro hlen m hm hinv
    rw [hres]
    refine h₄ hlen m (List.mem_filter.mpr ⟨hm, ?_⟩)
    simpa [pmInvolves] using hinv
  · intro m hm hinv hnot m' hm'
    rw [hres] at hnot hm'
    refine h₅ m (List.mem_filter.mpr ⟨hm, ?_⟩) hnot m' hm'
    simpa [pmInvolves] using hinv

/-- A private message between two users, as `send_private_message` builds
it. -/
def mkPM (i f t : String) (ts : Nat) : PrivateMessage :=
  { id := i, fromUserId := f, fromNickname := f, toUserId := t,
    toNickname := t, message := "x", timestamp := ts,
    formattedTime := formatHM ts, isPrivate := true }

/-- `st₀` with three private messages, two of them involving alice. -/
def stP : AppState :=
  { st₀ with privateMessages :=
      [mkPM "p1" "alice" "carol" 3, mkPM "p2" "carol" "alice" 1,
       mkPM "p3" "mallory" "carol" 2] }

/-- Witness for C7: in the three-message collection the earliest message
involving alice is part of her listing. -/
theorem getPrivateMessages_spec_witness :
    mkPM "p2" "carol" "alice" 1 ∈ getPrivateMessages stP "alice" := by
  have h := (getPrivateMessages_spec stP "alice").2.2.2.1 (by decide)
    (mkPM "p2" "carol" "alice" 1) (by decide) (by decide)
  exact h

/-- Witness for C3 (amended): posting `"hello"` to `general` and reading
the room back shows the new message, trimmed text and `edited = false`. -/
theorem sendMessage_post_then_get_witness :
    ∃ m, (sendMessage st₀ "alice" "general" "hello" "m9" 7).2 = .ok m
      ∧ m.message = pstrip "hello" ∧ m.edited = false ∧ m.id = "m9"
      ∧ dget ((sendMessage st₀ "alice" "general" "hello" "m9" 7).1).rooms "general"
          = some { seedRoom "General" with
                   messages := (seedRoom "General").messages ++ [m] }
      ∧ ∃ msgs,
          getMessages ((sendMessage st₀ "alice" "general" "hello" "m9" 7).1) "general"
            = .ok (msgs, (seedRoom "General").name) ∧ m ∈ msgs :=
  (sendMessage_post_then_get st₀ (seedRoom "General") "alice" "general"
    "hello" "m9" 7).1 (by decide) (by decide) (by decide)

/-- C8: the notification sink call is total and self-contained — its
codomain is `Bool`, so no failure value can propagate into a caller; it
returns `false` when either credential is unconfigured and `false` when
the delivery attempt raises (the exception is caught and only logged); and
the session state produced by the triggering operation (`logout`, the one
`src/` operation that calls the sink) is the same whatever the delivery
outcome, so nothing is ever rolled back because of the sink. -/
theorem sendTelegramMessage_spec (botToken chatId : Option String)
    (message : String) (o : DeliveryOutcome) (sess : Session)
    (currentUser : Option String) :
    ((¬ present botToken ∨ ¬ present chatId) →
        sendTelegramMessage botToken chatId message o = false)
    ∧ (∀ e, o = .raised e → sendTelegramMessage botToken chatId message o = false)
    ∧ (sendTelegramMessage botToken chatId message o = true
        ∨ sendTelegramMessage botToken chatId message o = false)
    ∧ (∀ o₁, (logout sess currentUser botToken chatId o).1
        = (logout sess currentUser botToken chatId o₁).1) := by
  refine ⟨?_, ?_, ?_, ?_⟩
  · intro h
    simp only [sendTelegramMessage]
    rw [if_pos h]
  · intro e he
    subst he
    by_cases h : (¬ present botToken = true ∨ ¬ present chatId = true)
    · simp only [sendTelegramMessage]
      rw [if_pos h]
    · simp only [sendTelegramMessage]
      rw [if_neg h]
      rfl
  · cases h : sendTelegramMessage botToken chatId message o
    · exact Or.inr rfl
    · exact Or.inl rfl
  · intro o₁
    rfl

/-- Witness for C8: without a bot token a successful-looking delivery
still reports `false`, and a raised delivery with full credentials also
reports `false` — never an exception. -/
theorem sendTelegramMessage_spec_witness :
    sendTelegramMessage none (some "chat") "hello" (.response 200) = false
    ∧ sendTelegramMessage (some "tok") (some "chat") "hello"
        (.raised "boom") = false := by
  constructor
  · exact (sendTelegramMessage_spec none (some "chat") "hello" (.response 200)
      ⟨none, none⟩ none).1 (Or.inl (by decide))
  · exact (sendTelegramMessage_spec (some "tok") (some "chat") "hello"
      (.raised "boom") ⟨none, none⟩ none).2.1 "boom" rfl

/-- C1 (spec-modelled: `rebind` has no implementation under `src/`; the
definition follows spec §4.1 word by word): when the new key is free,
rebinding succeeds, the identity record moves to the new key, the session
binding follows, every room is mapped through the author rewrite — so
every message previously authored under the old key now reports the new
key and label, and untouched messages stay identical — and every private
message has its sender/recipient key and label rewritten likewise; when
the new key is taken by a different identity, rebinding fails with the
conflict error. -/
theorem rebind_spec (st : AppState) (sess : Session) (oldKey newKey : String)
    (ident : Identity) (hold : dget st.users oldKey = some ident) :
    (dget st.users newKey = none →
      ∃ st₁ sess₁, rebind st sess oldKey newKey = .ok (st₁, sess₁, ident)
        ∧ dget st₁.users newKey = some ident
        ∧ dget st₁.users oldKey = none
        ∧ sess₁.username
            = (if sess.username = some oldKey then some newKey else sess.username)
        ∧ (∀ slug room, dget st.rooms slug = some room →
            dget st₁.rooms slug = some (rebindRoom oldKey newKey room))
        ∧ st₁.privateMessages = st.privateMessages.map (rebindPrivate oldKey newKey)
        ∧ (∀ room, (rebindRoom oldKey newKey room).messages
            = room.messages.map (rebindMessage oldKey newKey))
        ∧ (∀ m : Message, m.userId = oldKey →
            rebindMessage oldKey newKey m
              = { m with userId := newKey, nickname := newKey })
        ∧ (∀ m : Message, m.userId ≠ oldKey → rebindMessage oldKey newKey m = m)
        ∧ (∀ p : PrivateMessage, p.fromUserId = oldKey →
            (rebindPrivate oldKey newKey p).fromUserId = newKey
            ∧ (rebindPrivate oldKey newKey p).fromNickname = newKey)
        ∧ (∀ p : PrivateMessage, p.toUserId = oldKey →
            (rebindPrivate oldKey newKey p).toUserId = newKey
            ∧ (rebindPrivate oldKey newKey p).toNickname = newKey))
    ∧ (∀ other, dget st.users newKey = some other → newKey ≠ oldKey →
        rebind st sess oldKey newKey = .error ⟨409, "Username already taken"⟩) := by
  constructor
  · intro hfree
    have hne : newKey ≠ oldKey := by
      intro h
      rw [h, hold] at hfree
      cases hfree
    have hcond : ¬(newKey ≠ oldKey ∧ (dget st.users newKey).isSome = true) := by
      intro hc
      rw [hfree] at hc
      cases hc.2
    have hrun : rebind st sess oldKey newKey
        = .ok (rebindState st oldKey newKey ident,
               rebindSession sess oldKey newKey, ident) := by
      simp only [rebind, hold]
      rw [if_neg hcond]
    refine ⟨rebindState st oldKey newKey ident,
      rebindSession sess oldKey newKey, hrun, ?_, ?_, rfl, ?_, rfl, ?_, ?_, ?_, ?_, ?_⟩
    · exact dget_dset_self _ _ _
    · show dget (dset (ddel st.users oldKey) newKey ident) oldKey = none
      rw [dget_dset_ne _ _ _ _ (fun h => hne h.symm)]
      exact dget_ddel_self _ _
    · intro slug room hr
      show dget (st.rooms.map (fun p => (p.1, rebindRoom oldKey newKey p.2))) slug
        = some (rebindRoom oldKey newKey room)
      rw [dget_map_val, hr]
      rfl
    · intro room
      rfl
    · intro m hm
      simp only [rebindMessage]
      rw [if_pos hm]
    · intro m hm
      simp only [rebindMessage]
      rw [if_neg hm]
    · intro p hp
      by_cases ht : p.toUserId = oldKey
      · simp [rebindPrivate, hp, ht]
      · simp [rebindPrivate, hp, ht]
    · intro p hp
      by_cases hf : p.fromUserId = oldKey
      · simp [rebindPrivate, hf, hp]
      · simp [rebindPrivate, hf, hp]
  · intro other hfull hne
    have hcond : newKey ≠ oldKey ∧ (dget st.users newKey).isSome = true := by
      rw [hfull]
      exact ⟨hne, rfl⟩
    simp only [rebind, hold]
    rw [if_pos hcond]

/-- Witness for C1: rebinding alice to the unused key bob in the
one-message state succeeds; the success clause is instantiated in full. -/
theorem rebind_spec_witness :
    ∃ st₂ sess₂,
      rebind st₁ ⟨some "alice", none⟩ "alice" "bob"
          = .ok (st₂, sess₂, mkIdentity "alice")
        ∧ dget st₂.users "bob" = some (mkIdentity "alice")
        ∧ dget st₂.users "alice" = none
        ∧ sess₂.username
            = (if (some "alice" : Option String) = some "alice" then some "bob"
               else (some "alice" : Option String))
        ∧ (∀ slug room, dget st₁.rooms slug = some room →
            dget st₂.rooms slug = some (rebindRoom "alice" "bob" room))
        ∧ st₂.privateMessages
            = st₁.privateMessages.map (rebindPrivate "alice" "bob")
        ∧ (∀ room, (rebindRoom "alice" "bob" room).messages
            = room.messages.map (rebindMessage "alice" "bob"))
        ∧ (∀ m : Message, m.userId = "alice" →
            rebindMessage "alice" "bob" m
              = { m with userId := "bob", nickname := "bob" })
        ∧ (∀ m : Message, m.userId ≠ "alice" →
            rebindMessage "alice" "bob" m = m)
        ∧ (∀ p : PrivateMessage, p.fromUserId = "alice" →
            (rebindPrivate "alice" "bob" p).fromUserId = "bob"
            ∧ (rebindPrivate "alice" "bob" p).fromNickname = "bob")
        ∧ (∀ p : PrivateMessage, p.toUserId = "alice" →
            (rebindPrivate "alice" "bob" p).toUserId = "bob"
            ∧ (rebindPrivate "alice" "bob" p).toNickname = "bob") :=
  (rebind_spec st₁ ⟨some "alice", none⟩ "alice" "bob" (mkIdentity "alice")
    (by decide)).1 (by decide)

/-- The fresh message a successful post builds (`app.py` 351–359). -/
def mkMsg (freshId author text : String) (now : Nat) : Message :=
  { id := freshId, userId := author, nickname := author, message := text,
    timestamp := now, formattedTime := formatHM now, edited := false }

/-- C10: post, edit and delete on one room leave every other room and the
whole private-message collection unchanged; among identity records, post
touches at most the posting author (and then only the last-seen field),
while edit and delete leave the users dict entirely unchanged. -/
theorem frame_post_edit_delete (st : AppState)
    (author slug mid rawText freshId : String) (now : Nat) :
    ((∀ s, s ≠ slug →
        dget ((sendMessage st author slug rawText freshId now).1).rooms s
          = dget st.rooms s)
      ∧ ((sendMessage st author slug rawText freshId now).1).privateMessages
          = st.privateMessages
      ∧ (∀ u, u ≠ author →
          dget ((sendMessage st author slug rawText freshId now).1).users u
            = dget st.users u)
      ∧ (∀ ident, dget st.users author = some ident →
          dget ((sendMessage st author slug rawText freshId now).1).users author
              = some ident
            ∨ dget ((sendMessage st author slug rawText freshId now).1).users author
              = some { ident with lastSeen := now }))
    ∧ (((editMessage st author slug mid rawText now).1).users = st.users
      ∧ ((editMessage st author slug mid rawText now).1).privateMessages
          = st.privateMessages
      ∧ (∀ s, s ≠ slug →
          dget ((editMessage st author slug mid rawText now).1).rooms s
            = dget st.rooms s))
    ∧ (((deleteMessage st author slug mid).1).users = st.users
      ∧ ((deleteMessage st author slug mid).1).privateMessages
          = st.privateMessages
      ∧ (∀ s, s ≠ slug →
          dget ((deleteMessage st author slug mid).1).rooms s
            = dget st.rooms s)) := by
  have hsend : (sendMessage st author slug rawText freshId now).1 = st
      ∨ ∃ mm, (sendMessage st author slug rawText freshId now).1
          = postState st author slug mm now := by
    by_cases h₁ : (slug = "" ∨ pstrip rawText = "")
    · left
      simp only [sendMessage]
      rw [if_pos h₁]
    · cases hopt : dget st.rooms slug with
      | none =>
        left
        simp only [sendMessage]
        rw [if_neg h₁]
        simp [hopt]
      | some room =>
        right
        refine ⟨mkMsg freshId author (pstrip rawText) now, ?_⟩
        simp only [sendMessage, postState, mkMsg]
        rw [if_neg h₁]
        simp [hopt]
  have hedit : (editMessage st author slug mid rawText now).1 = st
      ∨ ∃ msgs₁, (editMessage st author slug mid rawText now).1
          = withMessages st slug msgs₁ := by
    by_cases h₁ : (mid = "" ∨ pstrip rawText = "" ∨ slug = "")
    · left
      simp only [editMessage]
      rw [if_pos h₁]
    · cases hopt : dget st.rooms slug with
      | none =>
        left
        simp only [editMessage]
        rw [if_neg h₁]
        simp [hopt]
      | some room =>
        cases hloop : editLoop room.messages mid author (pstrip rawText) now with
        | none =>
          left
          simp only [editMessage]
          rw [if_neg h₁]
          simp [hopt, hloop]
        | some pr =>
          obtain ⟨msgs₁, res⟩ := pr
          right
          refine ⟨msgs₁, ?_⟩
          simp only [editMessage, withMessages]
          rw [if_neg h₁]
          simp [hopt, hloop]
  have hdel : (deleteMessage st author slug mid).1 = st
      ∨ ∃ msgs₁, (deleteMessage st author slug mid).1
          = withMessages st slug msgs₁ := by
    by_cases h₁ : (mid = "" ∨ slug = "")
    · left
      simp only [deleteMessage]
      rw [if_pos h₁]
    · cases hopt : dget st.rooms slug with
      | none =>
        left
        simp only [deleteMessage]
        rw [if_neg h₁]
        simp [hopt]
      | some room =>
        cases hloop : removeLoop room.messages mid author with
        | none =>
          left
          simp only [deleteMessage]
          rw [if_neg h₁]
          simp [hopt, hloop]
        | some msgs₁ =>
          right
          refine ⟨msgs₁, ?_⟩
          simp only [deleteMessage, withMessages]
          rw [if_neg h₁]
          simp [hopt, hloop]
  refine ⟨⟨?_, ?_, ?_, ?_⟩, ⟨?_, ?_, ?_⟩, ⟨?_, ?_, ?_⟩⟩
  · intro s hs
    rcases hsend with h | ⟨mm, h⟩
    · rw [h]
    · rw [h]
      exact dget_dmod_ne _ _ _ _ hs
  · rcases hsend with h | ⟨mm, h⟩
    · rw [h]
    · rw [h]
      rfl
  · intro u hu
    rcases hsend with h | ⟨mm, h⟩
    · rw [h]
    · rw [h]
      exact dget_dmod_ne _ _ _ _ hu
  · intro ident hident
    rcases hsend with h | ⟨mm, h⟩
    · left
      rw [h]
      exact hident
    · right
      rw [h]
      show dget (dmod st.users author (fun u => { u with lastSeen := now })) author
        = some { ident with lastSeen := now }
      rw [dget_dmod_self, hident]
      rfl
  · rcases hedit with h | ⟨msgs₁, h⟩
    · rw [h]
    · rw [h]
      rfl
  · rcases hedit with h | ⟨msgs₁, h⟩
    · rw [h]
    · rw [h]
      rfl
  · intro s hs
    rcases hedit with h | ⟨msgs₁, h⟩
    · rw [h]
    · rw [h]
      exact dget_dmod_ne _ _ _ _ hs
  · rcases hdel with h | ⟨msgs₁, h⟩
    · rw [h]
    · rw [h]
      rfl
  · rcases hdel with h | ⟨msgs₁, h⟩
    · rw [h]
    · rw [h]
      rfl
  · intro s hs
    rcases hdel with h | ⟨msgs₁, h⟩
    · rw [h]
    · rw [h]
      exact dget_dmod_ne _ _ _ _ hs

/-- Witness for C10: a post into `general` leaves `random`, the private
messages and carol untouched, and an edit leaves the users dict alone. -/
theorem frame_post_edit_delete_witness :
    dget ((sendMessage st₀ "alice" "general" "hi" "m5" 6).1).rooms "random"
      = dget st₀.rooms "random"
    ∧ ((sendMessage st₀ "alice" "general" "hi" "m5" 6).1).privateMessages
      = st₀.privateMessages
    ∧ dget ((sendMessage st₀ "alice" "general" "hi" "m5" 6).1).users "carol"
      = dget st₀.users "carol"
    ∧ ((editMessage st₀ "alice" "general" "m1" "yo" 6).1).users = st₀.users := by
  obtain ⟨⟨ha, hb, hc, -⟩, ⟨hd, -, -⟩, -⟩ :=
    frame_post_edit_delete st₀ "alice" "general" "m1" "hi" "m5" 6
  exact ⟨ha "random" (by decide), hb, hc "carol" (by decide), hd⟩

end ChatApp
